import Mathlib

/-!
Shallow embedding of the farcaster unfollow/refollow utility
(`farcaster_api.py`, `unfollow_all.py`, `refollow_all.py`).

The HTTP layer is modelled by an explicit response value per request and a
trace of issued network calls; the CSV record file is modelled as an
optional list of structured rows (`none` = the file does not exist), with
the serialization of a 4-field row by the csv module abstracted into the
`CsvRow` structure.  Python integer printing and parsing (`str`, `int`)
are modelled at the character level by `pyNatStr` / `pyInt`.
-/

/-- One entry of the following list, as extracted by
`FarcasterAPI.get_following_list` from the `user` object of a page item
(`fid` from the JSON integer, the remaining fields with default ""). -/
structure FUser where
  fid : Int
  username : String
  display_name : String
  pfp_url : String
  custody_address : String
deriving Repr, DecidableEq

/-- One serialized row of the record CSV file: four string fields in the
column order `fid,username,display_name,unfollowed_at`. -/
structure CsvRow where
  fid : String
  username : String
  display_name : String
  unfollowed_at : String
deriving Repr, DecidableEq

/-- The header row written by `save_user_to_csv` for a fresh file. -/
def headerRow : CsvRow :=
  { fid := "fid", username := "username",
    display_name := "display_name", unfollowed_at := "unfollowed_at" }

/-- Outcome of one HTTP request: a response with a status code and the
message string extracted from the JSON body (`none` when the body is not
JSON or carries no string message — both lead to the same fallthrough in
the source), or a transport-level failure (`requests.RequestException`). -/
inductive HttpResult where
  | response (status : Nat) (jsonMessage : Option String)
  | transportError
deriving Repr, DecidableEq

/-- A mutating network call issued by the client:
`DELETE /user/follow` (unfollow) or `POST /user/follow` (follow),
with the target fid from the request payload. -/
inductive NetCall where
  | deleteFollow (targetFid : Int)
  | postFollow (targetFid : Int)
deriving Repr, DecidableEq

/-- Substring test on character lists, modelling Python `in` on str. -/
def listContains (pat : List Char) : List Char → Bool
  | [] => pat.isEmpty
  | c :: rest => pat.isPrefixOf (c :: rest) || listContains pat rest

/-- Python `pat in message.lower()` for an extracted JSON message
(`None`/non-string message never matches: the source falls through). -/
def msgIndicates (pats : List String) (msg : Option String) : Bool :=
  match msg with
  | none => false
  | some m => pats.any fun p => listContains p.data (m.data.map Char.toLower)

/-- Shared non-dry-run decision logic of `unfollow_user` / `follow_user`:
the 400/409 benign-message check, then `raise_for_status` (which raises
for 400 ≤ status < 600, caught and turned into `false`), else `true`.
A transport failure is caught and turned into `false`. -/
def mutationOutcome (pats : List String) (resp : HttpResult) : Bool :=
  match resp with
  | .transportError => false
  | .response status msg =>
    if (status == 400 || status == 409) && msgIndicates pats msg then true
    else if 400 ≤ status && status < 600 then false
    else true

/-- The benign-error message fragments checked by `unfollow_user`. -/
def unfollowMsgs : List String := ["not following", "not followed"]

/-- The benign-error message fragments checked by `follow_user`. -/
def followMsgs : List String := ["already following", "already followed"]

/-- `FarcasterAPI.unfollow_user target_fid dry_run`, with the HTTP
response supplied explicitly.  Returns the boolean result and the list of
network calls issued (empty in dry-run mode, where the source returns
`True` before any request). -/
def unfollow_user (targetFid : Int) (dry_run : Bool) (resp : HttpResult) :
    Bool × List NetCall :=
  if dry_run then (true, [])
  else (mutationOutcome unfollowMsgs resp, [NetCall.deleteFollow targetFid])

/-- `FarcasterAPI.follow_user target_fid dry_run`, with the HTTP response
supplied explicitly. -/
def follow_user (targetFid : Int) (dry_run : Bool) (resp : HttpResult) :
    Bool × List NetCall :=
  if dry_run then (true, [])
  else (mutationOutcome followMsgs resp, [NetCall.postFollow targetFid])

/-- One page of the paginated `/following/` response: the `users` array
(each item optionally carrying an embedded `user` object, already
projected to `FUser`; `none` models an item without a `user` key) and the
`next.cursor` field (`none` models an absent field). -/
structure Page where
  users_data : List (Option FUser)
  nextCursor : Option String
deriving Repr, DecidableEq

/-- The inner extraction loop of `get_following_list`: items without an
embedded `user` object are skipped. -/
def extractPage (p : Page) : List FUser :=
  p.users_data.filterMap id

/-- Python truthiness of the cursor: `if not next_cursor: break` stops on
an absent cursor and also on an empty-string cursor. -/
def cursorContinues (c : Option String) : Bool :=
  match c with
  | none => false
  | some s => !s.isEmpty

/-- `FarcasterAPI.get_following_list`, with the successive page responses
supplied as a list consumed in request order: accumulate the extracted
users of each page and continue to the next page exactly when the cursor is
truthy. -/
def get_following_list : List Page → List FUser
  | [] => []
  | p :: rest =>
    extractPage p ++
      (if cursorContinues p.nextCursor then get_following_list rest else [])

/-- Decimal digits of a natural, least significant first, using core
`Nat.digitChar` (the digit characters Python `str` prints); fuelled so
the recursion is structural, with `fuel ≥ n` always sufficient. -/
def pyDigitsCore : Nat → Nat → List Char
  | 0, _ => []
  | _ + 1, 0 => []
  | fuel + 1, n + 1 =>
    Nat.digitChar ((n + 1) % 10) :: pyDigitsCore fuel ((n + 1) / 10)

/-- Python `str` on a nonnegative integer: decimal digits, `"0"` for 0. -/
def pyNatStr (n : Nat) : List Char :=
  if n = 0 then ['0'] else (pyDigitsCore n n).reverse

/-- Python `str` on an integer: a leading minus sign for negatives. -/
def pyIntStr (i : Int) : List Char :=
  if i < 0 then '-' :: pyNatStr (-i).toNat else pyNatStr i.toNat

/-- Numeric value of a decimal digit character. -/
def digitVal (c : Char) : Nat := c.toNat - '0'.toNat

/-- Parse a nonempty all-digit character list as a decimal natural. -/
def parseDigits (l : List Char) : Option Nat :=
  if l.isEmpty then none
  else if l.all Char.isDigit then
    some (l.foldl (fun n c => n * 10 + digitVal c) 0)
  else none

/-- Python `int` on a string: optional single sign followed by a nonempty
run of decimal digits, otherwise a `ValueError` (here `none`).  This
abstracts CPython `int`, which additionally tolerates surrounding
whitespace, digit-group underscores and non-ASCII digits; none of those
occur in fields written by this system. -/
def pyInt : List Char → Option Int
  | [] => none
  | c :: rest =>
    if c = '-' then (parseDigits rest).map (fun n => -(n : Int))
    else if c = '+' then (parseDigits rest).map (fun n => (n : Int))
    else (parseDigits (c :: rest)).map (fun n => (n : Int))

/-- Python `str(i)` as a Lean `String`. -/
def pyIntString (i : Int) : String := ⟨pyIntStr i⟩

/-- Python `int(s)` on a Lean `String`. -/
def pyIntOfString (s : String) : Option Int := pyInt s.data

/-- The row written by `save_user_to_csv` for one unfollowed user, with
the `unfollowed_at` timestamp captured at write time supplied as `ts`. -/
def record_of (u : FUser) (ts : String) : CsvRow :=
  { fid := pyIntString u.fid, username := u.username,
    display_name := u.display_name, unfollowed_at := ts }

/-- Appending one row to the record file (`csv.DictWriter` in append
mode): a fresh file gets the header first, an existing file is never
rewritten.  `none` models an absent file. -/
def writeRow (file : Option (List CsvRow)) (r : CsvRow) : List CsvRow :=
  match file with
  | none => [headerRow, r]
  | some rows => rows ++ [r]

/-- `save_user_to_csv user my_fid timestamp csv_filename`: append the
record row of the user, creating the file with a header when absent. -/
def save_user_to_csv (u : FUser) (ts : String)
    (file : Option (List CsvRow)) : List CsvRow :=
  writeRow file (record_of u ts)

/-- One parsed row of the record file as built by `load_users_from_csv`:
`int(row[fid])` plus the three string fields. -/
structure RUser where
  fid : Int
  username : String
  display_name : String
  unfollowed_at : String
deriving Repr, DecidableEq

/-- Parsing of one data row inside `load_users_from_csv`; a non-numeric
id field raises `ValueError`, which the enclosing handler turns into a
failure of the whole load. -/
def parseCsvUser (r : CsvRow) : Option RUser :=
  match pyIntOfString r.fid with
  | some n =>
    some { fid := n, username := r.username,
           display_name := r.display_name, unfollowed_at := r.unfollowed_at }
  | none => none

/-- `load_users_from_csv` on an explicit file: a missing file
(`FileNotFoundError`) and any row error fail the whole load (`none`).
`csv.DictReader` consumes the header row and maps the remaining rows by
the column names of the header; a file whose header is not the standard
`fid,username,display_name,unfollowed_at` header makes `row[fid]` fail
for files of this format (modelled as a failed load — record files
written by this system always carry the standard header). -/
def load_users_from_csv : Option (List CsvRow) → Option (List RUser)
  | none => none
  | some [] => some []
  | some (h :: data) =>
    if h = headerRow then data.mapM parseCsvUser else none

/-- Accumulated state of the unfollow processing loop: the record file
(`none` until the first successful write creates it), the in-memory
success and failure lists, and the trace of issued network calls. -/
structure ULoopState where
  file : Option (List CsvRow)
  successes : List FUser
  failures : List FUser
  netCalls : List NetCall
deriving Repr, DecidableEq

/-- The initial loop state: no file, empty tallies, no calls. -/
def initU : ULoopState := { file := none, successes := [], failures := [], netCalls := [] }

/-- One iteration of the unfollow loop of `unfollow_all.main`: call
`unfollow_user`; on success append the user to the success list and save
its row to the CSV immediately; on failure record it in the in-memory
failure list only.  `i` is the 0-based position of the entry, indexing
the per-call response and the write-time timestamp. -/
def uStep (dry_run : Bool) (resp : Nat → HttpResult) (ts : Nat → String)
    (st : ULoopState) (i : Nat) (u : FUser) : ULoopState :=
  let r := unfollow_user u.fid dry_run (resp i)
  if r.fst then
    { file := some (save_user_to_csv u (ts i) st.file),
      successes := st.successes ++ [u],
      failures := st.failures,
      netCalls := st.netCalls ++ r.snd }
  else
    { file := st.file,
      successes := st.successes,
      failures := st.failures ++ [u],
      netCalls := st.netCalls ++ r.snd }

/-- The unfollow processing loop over the remaining entries, threading
the 0-based entry index. -/
def uLoop (dry_run : Bool) (resp : Nat → HttpResult) (ts : Nat → String) :
    Nat → ULoopState → List FUser → ULoopState
  | _, st, [] => st
  | i, st, u :: rest => uLoop dry_run resp ts (i + 1) (uStep dry_run resp ts st i u) rest

/-- Python slice `xs[:n]` for an `int` bound `n`: the first `n` elements
for nonnegative `n`, all but the last `-n` elements for negative `n`. -/
def pySliceTo (xs : List FUser) (n : Int) : List FUser :=
  if 0 ≤ n then xs.take n.toNat else xs.take (xs.length - (-n).toNat)

/-- The `--limit` handling of `unfollow_all.main`: `if args.limit:` is
falsy for an absent limit and also for a limit of 0, leaving the list
untouched; otherwise `following_users[:args.limit]`. -/
def applyLimit (limit : Option Int) (xs : List FUser) : List FUser :=
  match limit with
  | none => xs
  | some n => if n = 0 then xs else pySliceTo xs n

/-- Observable outcome of one run of `unfollow_all.main`, from the
fetched following list onward: exit code, final record file state, the
list of entries the processing loop iterated over, the success/failure
tallies, the issued mutating network calls, and whether the confirmation
prompt was reached. -/
structure UnfollowResult where
  exitCode : Nat
  file : Option (List CsvRow)
  processed : List FUser
  successes : List FUser
  failures : List FUser
  netCalls : List NetCall
  prompted : Bool
deriving Repr, DecidableEq

/-- `unfollow_all.main` from the fetched following list onward (identity
resolution and logging setup are externalized as parameters): an empty
list returns 0 immediately; the optional limit is applied; the user is
prompted and a declined confirmation returns 0; otherwise the processing
loop runs and the run returns 0. -/
def unfollowMain (users : List FUser) (limit : Option Int) (dry_run : Bool)
    (confirm : Bool) (resp : Nat → HttpResult) (ts : Nat → String) : UnfollowResult :=
  if users.isEmpty then
    { exitCode := 0, file := none, processed := [], successes := [],
      failures := [], netCalls := [], prompted := false }
  else
    let toProcess := applyLimit limit users
    if !confirm then
      { exitCode := 0, file := none, processed := [], successes := [],
        failures := [], netCalls := [], prompted := true }
    else
      let st := uLoop dry_run resp ts 0 initU toProcess
      { exitCode := 0, file := st.file, processed := toProcess,
        successes := st.successes, failures := st.failures,
        netCalls := st.netCalls, prompted := true }

/-- Accumulated state of the refollow processing loop. -/
structure RLoopState where
  successes : List RUser
  failures : List RUser
  netCalls : List NetCall
deriving Repr, DecidableEq

/-- The initial refollow loop state. -/
def initR : RLoopState := { successes := [], failures := [], netCalls := [] }

/-- One iteration of the refollow loop of `refollow_all.main`: call
`follow_user` and tally the outcome in memory; nothing is persisted. -/
def rStep (dry_run : Bool) (resp : Nat → HttpResult)
    (st : RLoopState) (i : Nat) (u : RUser) : RLoopState :=
  let r := follow_user u.fid dry_run (resp i)
  if r.fst then
    { successes := st.successes ++ [u], failures := st.failures,
      netCalls := st.netCalls ++ r.snd }
  else
    { successes := st.successes, failures := st.failures ++ [u],
      netCalls := st.netCalls ++ r.snd }

/-- The refollow processing loop, threading the 0-based entry index. -/
def rLoop (dry_run : Bool) (resp : Nat → HttpResult) :
    Nat → RLoopState → List RUser → RLoopState
  | _, st, [] => st
  | i, st, u :: rest => rLoop dry_run resp (i + 1) (rStep dry_run resp st i u) rest

/-- Observable outcome of one run of `refollow_all.main`: exit code, the
entries the processing loop iterated over, tallies, issued calls, whether
the confirmation prompt was reached, and the final state of the record
file (which `refollow_all` never writes). -/
structure RefollowResult where
  exitCode : Nat
  processedR : List RUser
  successesR : List RUser
  failuresR : List RUser
  netCalls : List NetCall
  prompted : Bool
  file : Option (List CsvRow)
deriving Repr, DecidableEq

/-- The confirmed tail of `refollow_all.main`: prompt, and on a declined
confirmation return 0 without processing; otherwise run the loop. -/
def refollowRun (file : Option (List CsvRow)) (dry_run : Bool) (confirm : Bool)
    (resp : Nat → HttpResult) (us : List RUser) : RefollowResult :=
  if !confirm then
    { exitCode := 0, processedR := [], successesR := [], failuresR := [],
      netCalls := [], prompted := true, file := file }
  else
    let st := rLoop dry_run resp 0 initR us
    { exitCode := 0, processedR := us, successesR := st.successes,
      failuresR := st.failures, netCalls := st.netCalls,
      prompted := true, file := file }

/-- `refollow_all.main` from the record-file load onward: a failed load
or an empty user list returns 1; a positive `--start-from` is
range-checked (`start_from >= len(users)` returns 1 before the prompt)
and then applied as `users[start_from:]`; a nonpositive `--start-from`
leaves the list untouched; then the confirmed tail runs. -/
def refollowMain (file : Option (List CsvRow)) (start_from : Int)
    (dry_run : Bool) (confirm : Bool) (resp : Nat → HttpResult) : RefollowResult :=
  match load_users_from_csv file with
  | none =>
    { exitCode := 1, processedR := [], successesR := [], failuresR := [],
      netCalls := [], prompted := false, file := file }
  | some users =>
    if users.isEmpty then
      { exitCode := 1, processedR := [], successesR := [], failuresR := [],
        netCalls := [], prompted := false, file := file }
    else if 0 < start_from then
      if (users.length : Int) ≤ start_from then
        { exitCode := 1, processedR := [], successesR := [], failuresR := [],
          netCalls := [], prompted := false, file := file }
      else refollowRun file dry_run confirm resp (users.drop start_from.toNat)
    else refollowRun file dry_run confirm resp users

/-- The rows of a possibly-absent file (an absent file has no rows). -/
def fileRows : Option (List CsvRow) → List CsvRow
  | none => []
  | some rows => rows

/-- Folding a sequence of row appends into a file state. -/
def pushFile (file : Option (List CsvRow)) (rows : List CsvRow) : Option (List CsvRow) :=
  rows.foldl (fun f r => some (writeRow f r)) file

/-- Whether the unfollow call for the entry at position `i` succeeds. -/
def succAt (dry_run : Bool) (resp : Nat → HttpResult) (i : Nat) (u : FUser) : Bool :=
  (unfollow_user u.fid dry_run (resp i)).fst

/-- The record rows produced by the unfollow loop over a list of entries
starting at position `i`: one row per successful entry, in order. -/
def expRows (dry_run : Bool) (resp : Nat → HttpResult) (ts : Nat → String) :
    Nat → List FUser → List CsvRow
  | _, [] => []
  | i, u :: us =>
    if succAt dry_run resp i u then
      record_of u (ts i) :: expRows dry_run resp ts (i + 1) us
    else expRows dry_run resp ts (i + 1) us

/-- The successful entries of the unfollow loop, in order. -/
def expSucc (dry_run : Bool) (resp : Nat → HttpResult) :
    Nat → List FUser → List FUser
  | _, [] => []
  | i, u :: us =>
    if succAt dry_run resp i u then u :: expSucc dry_run resp (i + 1) us
    else expSucc dry_run resp (i + 1) us

/-- The failed entries of the unfollow loop, in order. -/
def expFail (dry_run : Bool) (resp : Nat → HttpResult) :
    Nat → List FUser → List FUser
  | _, [] => []
  | i, u :: us =>
    if succAt dry_run resp i u then expFail dry_run resp (i + 1) us
    else u :: expFail dry_run resp (i + 1) us

/-- The network calls issued by the unfollow loop: none in dry-run mode,
one DELETE per entry otherwise, regardless of the response. -/
def expUCalls (dry_run : Bool) : List FUser → List NetCall
  | [] => []
  | u :: us => (if dry_run then [] else [NetCall.deleteFollow u.fid]) ++ expUCalls dry_run us

/-- Whether the follow call for the entry at position `i` succeeds. -/
def rSuccAt (dry_run : Bool) (resp : Nat → HttpResult) (i : Nat) (u : RUser) : Bool :=
  (follow_user u.fid dry_run (resp i)).fst

/-- The successful entries of the refollow loop, in order. -/
def rExpSucc (dry_run : Bool) (resp : Nat → HttpResult) :
    Nat → List RUser → List RUser
  | _, [] => []
  | i, u :: us =>
    if rSuccAt dry_run resp i u then u :: rExpSucc dry_run resp (i + 1) us
    else rExpSucc dry_run resp (i + 1) us

/-- The failed entries of the refollow loop, in order. -/
def rExpFail (dry_run : Bool) (resp : Nat → HttpResult) :
    Nat → List RUser → List RUser
  | _, [] => []
  | i, u :: us =>
    if rSuccAt dry_run resp i u then rExpFail dry_run resp (i + 1) us
    else u :: rExpFail dry_run resp (i + 1) us

/-- The network calls issued by the refollow loop: none in dry-run mode,
one POST per entry otherwise, regardless of the response. -/
def rExpCalls (dry_run : Bool) : List RUser → List NetCall
  | [] => []
  | u :: us => (if dry_run then [] else [NetCall.postFollow u.fid]) ++ rExpCalls dry_run us

/-- The record rows written for a list of all-successfully unfollowed
users, with per-entry write timestamps, starting at entry index `i`. -/
def recordsOf (ts : Nat → String) : Nat → List FUser → List CsvRow
  | _, [] => []
  | i, u :: us => record_of u (ts i) :: recordsOf ts (i + 1) us

/-- The parsed form of those rows, as `load_users_from_csv` returns it. -/
def rusersOf (ts : Nat → String) : Nat → List FUser → List RUser
  | _, [] => []
  | i, u :: us =>
    { fid := u.fid, username := u.username, display_name := u.display_name,
      unfollowed_at := ts i } :: rusersOf ts (i + 1) us

/-- Characterization of the unfollow loop: the final state appends, to
the starting state, exactly the successes, failures, calls and rows
determined entrywise by `unfollow_user`. -/
theorem uLoop_eq (d : Bool) (resp : Nat → HttpResult) (ts : Nat → String) :
    ∀ (us : List FUser) (i : Nat) (st : ULoopState),
    uLoop d resp ts i st us =
      { file := pushFile st.file (expRows d resp ts i us),
        successes := st.successes ++ expSucc d resp i us,
        failures := st.failures ++ expFail d resp i us,
        netCalls := st.netCalls ++ expUCalls d us } := by
  intro us
  induction us with
  | nil =>
    intro i st
    simp [uLoop, expRows, expSucc, expFail, expUCalls, pushFile]
  | cons u rest ih =>
    intro i st
    rw [uLoop, ih]
    simp only [uStep, expRows, expSucc, expFail, expUCalls, succAt]
    by_cases h : (unfollow_user u.fid d (resp i)).fst
    · simp only [h, if_true, ULoopState.mk.injEq]
      refine ⟨?_, ?_, ?_, ?_⟩
      · simp [pushFile, save_user_to_csv]
      · simp
      · simp
      · cases d <;> simp [unfollow_user] at h ⊢
    · simp only [h, if_false, ULoopState.mk.injEq]
      refine ⟨?_, ?_, ?_, ?_⟩
      · rfl
      · simp
      · simp
      · cases d <;> simp [unfollow_user] at h ⊢

/-- Characterization of the refollow loop. -/
theorem rLoop_eq (d : Bool) (resp : Nat → HttpResult) :
    ∀ (us : List RUser) (i : Nat) (st : RLoopState),
    rLoop d resp i st us =
      { successes := st.successes ++ rExpSucc d resp i us,
        failures := st.failures ++ rExpFail d resp i us,
        netCalls := st.netCalls ++ rExpCalls d us } := by
  intro us
  induction us with
  | nil =>
    intro i st
    simp [rLoop, rExpSucc, rExpFail, rExpCalls]
  | cons u rest ih =>
    intro i st
    rw [rLoop, ih]
    simp only [rStep, rExpSucc, rExpFail, rExpCalls, rSuccAt]
    by_cases h : (follow_user u.fid d (resp i)).fst
    · simp only [h, if_true, RLoopState.mk.injEq]
      refine ⟨by simp, by simp, ?_⟩
      cases d <;> simp [follow_user] at h ⊢
    · simp only [h, if_false, RLoopState.mk.injEq]
      refine ⟨by simp, by simp, ?_⟩
      cases d <;> simp [follow_user] at h ⊢

/-- The non-dry-run refollow loop issues one POST per entry, in order. -/
theorem rExpCalls_not_dry (us : List RUser) :
    rExpCalls false us = us.map (fun u => NetCall.postFollow u.fid) := by
  induction us with
  | nil => rfl
  | cons u rest ih => simp [rExpCalls, ih]

/-- The non-dry-run unfollow loop issues one DELETE per entry, in order. -/
theorem expUCalls_not_dry (us : List FUser) :
    expUCalls false us = us.map (fun u => NetCall.deleteFollow u.fid) := by
  induction us with
  | nil => rfl
  | cons u rest ih => simp [expUCalls, ih]

/-- Appending rows to an existing file appends them to its row list. -/
theorem pushFile_some (rows : List CsvRow) :
    ∀ rs : List CsvRow, pushFile (some rs) rows = some (rs ++ rows) := by
  induction rows with
  | nil => intro rs; simp [pushFile]
  | cons r rest ih =>
    intro rs
    show pushFile (some (writeRow (some rs) r)) rest = _
    rw [ih]
    simp [writeRow]

/-- Appending rows to an absent file creates it with the header followed
by exactly those rows (and an absent file stays absent when there is
nothing to write). -/
theorem pushFile_none (rows : List CsvRow) :
    pushFile none rows = if rows = [] then none else some (headerRow :: rows) := by
  cases rows with
  | nil => rfl
  | cons r rest =>
    show pushFile (some (writeRow none r)) rest = _
    rw [pushFile_some]
    simp [writeRow]

/-- Decimal digit characters are digits with the expected value. -/
theorem digitChar_isDigit_val (k : Nat) (hk : k < 10) :
    (Nat.digitChar k).isDigit = true ∧ digitVal (Nat.digitChar k) = k := by
  interval_cases k <;> exact ⟨by decide, by decide⟩

/-- With sufficient fuel, every produced character is a decimal digit. -/
theorem pyDigitsCore_digits :
    ∀ fuel n, n ≤ fuel → ∀ c ∈ pyDigitsCore fuel n, c.isDigit = true := by
  intro fuel
  induction fuel with
  | zero => intro n hn c hc; simp [pyDigitsCore] at hc
  | succ f ih =>
    intro n hn c hc
    cases n with
    | zero => simp [pyDigitsCore] at hc
    | succ m =>
      rw [pyDigitsCore] at hc
      rcases List.mem_cons.mp hc with h | h
      · subst h
        exact (digitChar_isDigit_val _ (Nat.mod_lt _ (by decide))).1
      · have hdiv : (m + 1) / 10 < m + 1 := Nat.div_lt_self (Nat.succ_pos m) (by decide)
        exact ih ((m + 1) / 10) (by omega) c h

/-- With sufficient fuel, folding the digit values (most significant
first over the reversed list, hence `foldr` here) recovers the number. -/
theorem pyDigitsCore_foldr :
    ∀ fuel n, n ≤ fuel →
    (pyDigitsCore fuel n).foldr (fun c acc => acc * 10 + digitVal c) 0 = n := by
  intro fuel
  induction fuel with
  | zero => intro n hn; interval_cases n; simp [pyDigitsCore]
  | succ f ih =>
    intro n hn
    cases n with
    | zero => simp [pyDigitsCore]
    | succ m =>
      rw [pyDigitsCore]
      have hdiv : (m + 1) / 10 < m + 1 := Nat.div_lt_self (Nat.succ_pos m) (by decide)
      have h1 := ih ((m + 1) / 10) (by omega)
      have h2 := (digitChar_isDigit_val ((m + 1) % 10) (Nat.mod_lt _ (by decide))).2
      simp only [List.foldr_cons, h1, h2]
      omega

/-- Every character of the Python representation of a natural is a digit. -/
theorem pyNatStr_digits (n : Nat) : ∀ c ∈ pyNatStr n, c.isDigit = true := by
  intro c hc
  by_cases h : n = 0
  · subst h; simp [pyNatStr] at hc; subst hc; decide
  · rw [pyNatStr, if_neg h] at hc
    exact pyDigitsCore_digits n n le_rfl c (List.mem_reverse.mp hc)

/-- The Python representation of a natural is never the empty string. -/
theorem pyNatStr_ne_nil (n : Nat) : pyNatStr n ≠ [] := by
  by_cases h : n = 0
  · subst h; decide
  · rw [pyNatStr, if_neg h]
    cases n with
    | zero => exact absurd rfl h
    | succ m => rw [pyDigitsCore]; simp

/-- Parsing the Python representation of a natural recovers it. -/
theorem parseDigits_pyNatStr (n : Nat) : parseDigits (pyNatStr n) = some n := by
  by_cases h : n = 0
  · subst h; decide
  · rw [pyNatStr, if_neg h, parseDigits]
    have hne : pyDigitsCore n n ≠ [] := by
      cases n with
      | zero => exact absurd rfl h
      | succ m => rw [pyDigitsCore]; simp
    rw [if_neg (by simp [List.isEmpty_iff, hne])]
    rw [if_pos]
    · rw [List.foldl_reverse, pyDigitsCore_foldr n n le_rfl]
    · rw [List.all_eq_true]
      intro c hc
      exact pyDigitsCore_digits n n le_rfl c (List.mem_reverse.mp hc)

/-- Python `int` parses the Python representation of a natural. -/
theorem pyInt_pyNatStr (n : Nat) : pyInt (pyNatStr n) = some (n : Int) := by
  obtain ⟨c, rest, hc⟩ : ∃ c rest, pyNatStr n = c :: rest := by
    cases h : pyNatStr n with
    | nil => exact absurd h (pyNatStr_ne_nil n)
    | cons c rest => exact ⟨c, rest, rfl⟩
  have hcd : c.isDigit = true := pyNatStr_digits n c (hc ▸ List.mem_cons_self c rest)
  rw [hc, pyInt]
  rw [if_neg (by rintro rfl; simp at hcd), if_neg (by rintro rfl; simp at hcd)]
  rw [← hc, parseDigits_pyNatStr]
  rfl

/-- Round trip: Python `int` on Python `str` of any integer. -/
theorem pyInt_pyIntStr (i : Int) : pyInt (pyIntStr i) = some i := by
  rw [pyIntStr]
  by_cases h : i < 0
  · rw [if_pos h, pyInt, if_pos rfl]
    have : ((-i).toNat : Int) = -i := Int.toNat_of_nonneg (by omega)
    have hp : parseDigits (pyNatStr (-i).toNat) = some (-i).toNat :=
      parseDigits_pyNatStr _
    rw [hp]
    simp [this]
  · rw [if_neg h, pyInt_pyNatStr]
    rw [Int.toNat_of_nonneg (by omega)]

/-- String-level form of the round trip. -/
theorem pyIntOfString_pyIntString (i : Int) :
    pyIntOfString (pyIntString i) = some i :=
  pyInt_pyIntStr i

/-- Parsing a row written by `save_user_to_csv` recovers the user fid
and string fields. -/
theorem parseCsvUser_record (u : FUser) (ts : String) :
    parseCsvUser (record_of u ts) =
      some { fid := u.fid, username := u.username,
             display_name := u.display_name, unfollowed_at := ts } := by
  simp [parseCsvUser, record_of, pyIntOfString_pyIntString]

/-- Loading the rows written for a user list parses them all. -/
theorem recordsOf_mapM (ts : Nat → String) :
    ∀ (us : List FUser) (i : Nat),
    (recordsOf ts i us).mapM parseCsvUser = some (rusersOf ts i us) := by
  intro us
  induction us with
  | nil => intro i; rfl
  | cons u rest ih =>
    intro i
    rw [recordsOf, rusersOf]
    rw [List.mapM_cons, parseCsvUser_record, ih (i + 1)]
    rfl

/-- The parsed rows carry the same fids, in the same order. -/
theorem rusersOf_map_fid (ts : Nat → String) :
    ∀ (us : List FUser) (i : Nat),
    (rusersOf ts i us).map (fun r => NetCall.postFollow r.fid) =
      us.map (fun u => NetCall.postFollow u.fid) := by
  intro us
  induction us with
  | nil => intro i; rfl
  | cons u rest ih => intro i; rw [rusersOf]; simp [ih (i + 1)]

/-- The parsed row list is empty exactly when the user list is. -/
theorem rusersOf_isEmpty (ts : Nat → String) (us : List FUser) (i : Nat) :
    (rusersOf ts i us).isEmpty = us.isEmpty := by
  cases us <;> rfl

/-- The written row list is empty exactly when the user list is. -/
theorem recordsOf_eq_nil (ts : Nat → String) (us : List FUser) (i : Nat) :
    recordsOf ts i us = [] ↔ us = [] := by
  cases us <;> simp [recordsOf]

/-- All-or-nothing load: one failing element fails the whole `mapM`. -/
theorem mapM_none_of_mem {α β : Type} (f : α → Option β) :
    ∀ (l : List α) (x : α), x ∈ l → f x = none → l.mapM f = none := by
  intro l
  induction l with
  | nil => intro x hx; simp at hx
  | cons a rest ih =>
    intro x hx hfx
    rw [List.mapM_cons]
    rcases List.mem_cons.mp hx with h | h
    · subst h; rw [hfx]; rfl
    · cases hfa : f a with
      | none => rfl
      | some b => rw [ih x h hfx]; rfl

/-- When every unfollow response is a success and the run is not a dry
run, every entry succeeds and the loop writes exactly the rows of
`recordsOf`. -/
theorem expRows_all_success (resp : Nat → HttpResult) (ts : Nat → String)
    (h : ∀ j, mutationOutcome unfollowMsgs (resp j) = true) :
    ∀ (us : List FUser) (i : Nat),
    expRows false resp ts i us = recordsOf ts i us := by
  intro us
  induction us with
  | nil => intro i; rfl
  | cons u rest ih =>
    intro i
    rw [expRows, recordsOf]
    have hs : succAt false resp i u = true := by
      show (unfollow_user u.fid false (resp i)).fst = true
      rw [unfollow_user]
      simp [h i]
    rw [if_pos hs, ih (i + 1)]

/-- C7: for every target identity and every ambient response, calling
`follow_user` or `unfollow_user` with dry_run=true performs no network
call (the issued-call trace is empty) and returns true. -/
theorem c7_dry_run_noop (fid : Int) (resp : HttpResult) :
    unfollow_user fid true resp = (true, []) ∧
    follow_user fid true resp = (true, []) :=
  ⟨rfl, rfl⟩

/-- C4: for every non-dry-run call of `follow_user` or `unfollow_user`:
a 2xx response returns true; an HTTP 400/409 response whose JSON message
indicates the desired state (not following / not followed for unfollow,
already following / already followed for follow, case-insensitively)
returns true; any other error response (4xx/5xx) or transport failure
returns false.  The embedding is a total function, reflecting that the
source catches every exception and never raises to the caller. -/
theorem c4_mutation_error_contract (fid : Int) (status : Nat) (msg : Option String) :
    (200 ≤ status → status < 300 →
      (unfollow_user fid false (.response status msg)).fst = true ∧
      (follow_user fid false (.response status msg)).fst = true) ∧
    ((status = 400 ∨ status = 409) → msgIndicates unfollowMsgs msg = true →
      (unfollow_user fid false (.response status msg)).fst = true) ∧
    ((status = 400 ∨ status = 409) → msgIndicates followMsgs msg = true →
      (follow_user fid false (.response status msg)).fst = true) ∧
    (400 ≤ status → status < 600 →
      ¬((status = 400 ∨ status = 409) ∧ msgIndicates unfollowMsgs msg = true) →
      (unfollow_user fid false (.response status msg)).fst = false) ∧
    (400 ≤ status → status < 600 →
      ¬((status = 400 ∨ status = 409) ∧ msgIndicates followMsgs msg = true) →
      (follow_user fid false (.response status msg)).fst = false) ∧
    (unfollow_user fid false .transportError).fst = false ∧
    (follow_user fid false .transportError).fst = false := by
  refine ⟨?_, ?_, ?_, ?_, ?_, rfl, rfl⟩
  · intro h1 h2
    constructor <;>
      simp [unfollow_user, follow_user, mutationOutcome,
        show (status == 400) = false by simp; omega,
        show (status == 409) = false by simp; omega,
        show (400 ≤ status) = False by simp; omega]
  · intro h1 h2
    simp [unfollow_user, mutationOutcome, h2]
    rcases h1 with h | h <;> simp [h]
  · intro h1 h2
    simp [follow_user, mutationOutcome, h2]
    rcases h1 with h | h <;> simp [h]
  · intro h1 h2 h3
    have hA : ((status == 400 || status == 409) && msgIndicates unfollowMsgs msg) = false := by
      cases hm : msgIndicates unfollowMsgs msg
      · simp
      · have hns : ¬(status = 400 ∨ status = 409) := fun hc => h3 ⟨hc, hm⟩
        push_neg at hns
        simp [hns.1, hns.2]
    simp [unfollow_user, mutationOutcome, hA, h1, h2]
  · intro h1 h2 h3
    have hA : ((status == 400 || status == 409) && msgIndicates followMsgs msg) = false := by
      cases hm : msgIndicates followMsgs msg
      · simp
      · have hns : ¬(status = 400 ∨ status = 409) := fun hc => h3 ⟨hc, hm⟩
        push_neg at hns
        simp [hns.1, hns.2]
    simp [follow_user, mutationOutcome, hA, h1, h2]

/-- Witness for C4 at concrete inputs: a 409 not-following response is a
benign unfollow success, and a transport failure is a follow failure. -/
theorem c4_mutation_error_contract_witness :
    (unfollow_user 5 false
      (.response 409 (some "You are not following this user"))).fst = true ∧
    (follow_user 5 false .transportError).fst = false := by
  have h := c4_mutation_error_contract 5 409
    (some "You are not following this user")
  exact ⟨h.2.1 (Or.inr rfl) (by decide), h.2.2.2.2.2.2⟩

/-- C3 counterexample: a two-page sequence in which only the last page
lacks a `next.cursor` field, but the cursor of the first page is the empty
string.  `if not next_cursor: break` treats the falsy empty string like
an absent cursor, so `get_following_list` stops after page one and does
not return the concatenation of the extracted users of both pages. -/
theorem c3_counterexample :
    ¬ (get_following_list
        [{ users_data := [some { fid := 1, username := "a", display_name := "",
                                 pfp_url := "", custody_address := "" }],
           nextCursor := some "" },
         { users_data := [some { fid := 2, username := "b", display_name := "",
                                 pfp_url := "", custody_address := "" }],
           nextCursor := none }] =
      (([{ users_data := [some { fid := 1, username := "a", display_name := "",
                                 pfp_url := "", custody_address := "" }],
           nextCursor := some "" },
         { users_data := [some { fid := 2, username := "b", display_name := "",
                                 pfp_url := "", custody_address := "" }],
           nextCursor := none }] : List Page).map extractPage).flatten) := by
  decide

/-- C3 (amended): for every finite sequence of pages in which every page
before the last has a truthy (present and non-empty) `next.cursor` and
the cursor of the last page is absent or empty, `get_following_list`
terminates (the embedding is structurally recursive) and returns exactly
the concatenation of the extracted users of every page, preserving page order
and within-page order, with entries lacking an embedded user object
skipped (`extractPage` keeps exactly the items with a `user` object). -/
theorem c3_pagination_concat (ps : List Page) (plast : Page)
    (h1 : ∀ p ∈ ps, cursorContinues p.nextCursor = true)
    (h2 : cursorContinues plast.nextCursor = false) :
    get_following_list (ps ++ [plast]) =
      ((ps ++ [plast]).map extractPage).flatten := by
  induction ps with
  | nil =>
    simp [get_following_list, h2]
  | cons p rest ih =>
    have hp : cursorContinues p.nextCursor = true := h1 p (List.mem_cons_self p rest)
    have ih2 := ih fun q hq => h1 q (List.mem_cons_of_mem p hq)
    simp only [List.cons_append, get_following_list, hp, if_true, List.map_cons,
      List.flatten_cons, ← ih2, List.append_eq]

/-- Witness for C3 (amended) at a concrete two-page input. -/
theorem c3_pagination_concat_witness :
    get_following_list
        ([{ users_data := [some { fid := 1, username := "a", display_name := "",
                                  pfp_url := "", custody_address := "" }, none],
            nextCursor := some "cur" }] ++
         [{ users_data := [some { fid := 2, username := "b", display_name := "",
                                  pfp_url := "", custody_address := "" }],
            nextCursor := none }]) =
      ((([{ users_data := [some { fid := 1, username := "a", display_name := "",
                                  pfp_url := "", custody_address := "" }, none],
            nextCursor := some "cur" }] ++
         [{ users_data := [some { fid := 2, username := "b", display_name := "",
                                  pfp_url := "", custody_address := "" }],
            nextCursor := none }]) : List Page).map extractPage).flatten :=
  c3_pagination_concat _ _ (by decide) (by decide)

/-- C2 (code bug evaluation): a dry-run unfollow run over one account,
with the confirmation accepted, appends an `UnfollowRecord` row for the
dry-run auto-success: the record file ends up with the header and one
row rather than not existing.  (The iff direction of the claim is what
the code implements — a row exists exactly for the calls that returned
success — but dry-run calls return success and are persisted, so a
dry-run run does produce records, against the claimed invariant.) -/
theorem c2_dry_run_writes_record :
    (unfollowMain
      [{ fid := 1, username := "alice", display_name := "Alice",
         pfp_url := "", custody_address := "" }]
      none true true (fun _ => .transportError) (fun _ => "T")).file =
    some [headerRow,
          { fid := "1", username := "alice", display_name := "Alice",
            unfollowed_at := "T" }] := by
  decide

/-- C9 counterexample: with a supplied cap of 0 over a one-entry list,
the claim demands that min(0, 1) = 0 entries are processed, but
`if args.limit:` is falsy for 0, so the whole list is processed. -/
theorem c9_counterexample :
    ¬ ((unfollowMain
          [{ fid := 1, username := "a", display_name := "",
             pfp_url := "", custody_address := "" }]
          (some 0) true true (fun _ => .transportError) (fun _ => "T")).processed =
        ([{ fid := 1, username := "a", display_name := "",
            pfp_url := "", custody_address := "" }] : List FUser).take
          (min 0 ([{ fid := 1, username := "a", display_name := "",
                     pfp_url := "", custody_address := "" }] : List FUser).length)) := by
  decide

/-- C9 (amended): for every supplied cap value N ≥ 1 and every fetched
following list of M entries, a confirmed unfollow run processes exactly
the first min(N, M) entries of the list and no others.  (A cap of 0 is
treated by the code as no cap at all, and a negative cap slices from the
end of the list; the claim holds for all positive caps.) -/
theorem c9_cap (users : List FUser) (n : Nat) (hn : 1 ≤ n) (dry_run : Bool)
    (resp : Nat → HttpResult) (ts : Nat → String) :
    (unfollowMain users (some (n : Int)) dry_run true resp ts).processed =
      users.take (min n users.length) := by
  rw [unfollowMain]
  by_cases h : users.isEmpty
  · rw [if_pos h]
    rw [List.isEmpty_iff] at h
    subst h
    simp
  · rw [if_neg h]
    show applyLimit (some (n : Int)) users = _
    rw [applyLimit]
    rw [if_neg (by exact_mod_cast by omega)]
    rw [pySliceTo, if_pos (by positivity)]
    rw [Int.toNat_natCast]
    rw [← List.take_take, List.take_length]

/-- Witness for C9 (amended) with a cap of 1 over two entries. -/
theorem c9_cap_witness :
    (unfollowMain
      [{ fid := 1, username := "a", display_name := "",
         pfp_url := "", custody_address := "" },
       { fid := 2, username := "b", display_name := "",
         pfp_url := "", custody_address := "" }]
      (some (1 : Nat)) false true (fun _ => .transportError) (fun _ => "T")).processed =
    ([{ fid := 1, username := "a", display_name := "",
        pfp_url := "", custody_address := "" },
      { fid := 2, username := "b", display_name := "",
        pfp_url := "", custody_address := "" }] : List FUser).take
      (min 1 ([{ fid := 1, username := "a", display_name := "",
                 pfp_url := "", custody_address := "" },
               { fid := 2, username := "b", display_name := "",
                 pfp_url := "", custody_address := "" }] : List FUser).length) :=
  c9_cap _ 1 (by decide) false (fun _ => .transportError) (fun _ => "T")

/-- C10: in the refollow workflow, a start offset at or beyond the
number of loaded rows exits with code 1 before the confirmation prompt
and before any follow call; a start offset at or below zero (including
negative values) leaves the loaded list unchanged, so the processing
loop runs over all loaded rows. -/
theorem c10_offset_bounds (file : Option (List CsvRow)) (us : List RUser)
    (k : Int) (dry_run : Bool) (resp : Nat → HttpResult)
    (h : load_users_from_csv file = some us) :
    (∀ confirm, (us.length : Int) ≤ k →
      (refollowMain file k dry_run confirm resp).exitCode = 1 ∧
      (refollowMain file k dry_run confirm resp).prompted = false ∧
      (refollowMain file k dry_run confirm resp).netCalls = []) ∧
    (k ≤ 0 → (refollowMain file k dry_run true resp).processedR = us) := by
  constructor
  · intro confirm hk
    cases hus : us.isEmpty
    · have hlen : 1 ≤ us.length := by
        cases us with
        | nil => simp at hus
        | cons a l => simp
      have hkpos : 0 < k := by omega
      refine ⟨?_, ?_, ?_⟩ <;>
        simp [refollowMain, h, hus, hkpos, hk]
    · refine ⟨?_, ?_, ?_⟩ <;> simp [refollowMain, h, hus]
  · intro hk
    cases hus : us.isEmpty
    · have hknpos : ¬(0 < k) := by omega
      rw [List.isEmpty_eq_false] at hus
      simp [refollowMain, h, hus, hknpos, refollowRun]
    · rw [List.isEmpty_iff] at hus
      subst hus
      simp [refollowMain, h]

/-- Witness for C10: a one-row file, exercised with an out-of-range
offset 5 and with offset -1. -/
theorem c10_offset_bounds_witness :
    (refollowMain (some [headerRow,
        { fid := "7", username := "a", display_name := "", unfollowed_at := "T" }])
        5 false true (fun _ => .response 200 none)).exitCode = 1 ∧
    (refollowMain (some [headerRow,
        { fid := "7", username := "a", display_name := "", unfollowed_at := "T" }])
        (-1) false true (fun _ => .response 200 none)).processedR =
      [{ fid := 7, username := "a", display_name := "", unfollowed_at := "T" }] := by
  have h5 := c10_offset_bounds (some [headerRow,
      { fid := "7", username := "a", display_name := "", unfollowed_at := "T" }])
      [{ fid := 7, username := "a", display_name := "", unfollowed_at := "T" }]
      5 false (fun _ => .response 200 none) (by decide)
  have hm1 := c10_offset_bounds (some [headerRow,
      { fid := "7", username := "a", display_name := "", unfollowed_at := "T" }])
      [{ fid := 7, username := "a", display_name := "", unfollowed_at := "T" }]
      (-1) false (fun _ => .response 200 none) (by decide)
  exact ⟨(h5.1 true (by decide)).1, hm1.2 (by decide)⟩

/-- C8: a record file (with the standard header) containing at least one
row whose id field is not numeric fails the whole load — the loader
returns no user list — and the refollow workflow then exits with code 1
before the confirmation prompt and before any follow call. -/
theorem c8_all_or_nothing (rows : List CsvRow) (r : CsvRow) (hr : r ∈ rows)
    (hbad : pyIntOfString r.fid = none) (k : Int) (dry_run confirm : Bool)
    (resp : Nat → HttpResult) :
    load_users_from_csv (some (headerRow :: rows)) = none ∧
    (refollowMain (some (headerRow :: rows)) k dry_run confirm resp).exitCode = 1 ∧
    (refollowMain (some (headerRow :: rows)) k dry_run confirm resp).prompted = false ∧
    (refollowMain (some (headerRow :: rows)) k dry_run confirm resp).netCalls = [] := by
  have hload : load_users_from_csv (some (headerRow :: rows)) = none := by
    show (if headerRow = headerRow then rows.mapM parseCsvUser else none) = none
    rw [if_pos rfl]
    exact mapM_none_of_mem parseCsvUser rows r hr (by simp [parseCsvUser, hbad])
  exact ⟨hload, by simp [refollowMain, hload], by simp [refollowMain, hload],
    by simp [refollowMain, hload]⟩

/-- Witness for C8: a file whose single data row has id field "abc". -/
theorem c8_all_or_nothing_witness :
    load_users_from_csv (some [headerRow,
      { fid := "abc", username := "x", display_name := "", unfollowed_at := "T" }]) = none ∧
    (refollowMain (some [headerRow,
      { fid := "abc", username := "x", display_name := "", unfollowed_at := "T" }])
      0 false true (fun _ => .response 200 none)).exitCode = 1 := by
  have h := c8_all_or_nothing
    [{ fid := "abc", username := "x", display_name := "", unfollowed_at := "T" }]
    { fid := "abc", username := "x", display_name := "", unfollowed_at := "T" }
    (by decide) (by decide) 0 false true (fun _ => .response 200 none)
  exact ⟨h.1, h.2.1⟩

/-- The rows written by the loop over a concatenation split at the
matching entry indices. -/
theorem expRows_append (d : Bool) (resp : Nat → HttpResult) (ts : Nat → String) :
    ∀ (xs ys : List FUser) (i : Nat),
    expRows d resp ts i (xs ++ ys) =
      expRows d resp ts i xs ++ expRows d resp ts (i + xs.length) ys := by
  intro xs
  induction xs with
  | nil => intro ys i; simp [expRows]
  | cons x rest ih =>
    intro ys i
    have hlen : i + (x :: rest).length = (i + 1) + rest.length := by
      simp only [List.length_cons]
      omega
    simp only [List.cons_append, List.append_eq, expRows, hlen]
    by_cases hx : succAt d resp i x = true
    · rw [if_pos hx, if_pos hx, ih, List.cons_append]
    · rw [if_neg hx, if_neg hx, ih]

/-- C5: during the unfollow loop a row is appended immediately after
each successful unfollow, so after processing any prefix of the entries
the record file is exactly the header followed by one row per successful
entry of that prefix, in processing order (and absent while there has
been no success); moreover the file contents after `k` entries are a
prefix of the contents after `k + 1` entries, so previously written rows
are never rewritten. -/
theorem c5_crash_safe_append (users : List FUser) (dry_run : Bool)
    (resp : Nat → HttpResult) (ts : Nat → String) (k : Nat) :
    fileRows (uLoop dry_run resp ts 0 initU (users.take k)).file =
      (if expRows dry_run resp ts 0 (users.take k) = [] then []
       else headerRow :: expRows dry_run resp ts 0 (users.take k)) ∧
    fileRows (uLoop dry_run resp ts 0 initU (users.take k)).file <+:
      fileRows (uLoop dry_run resp ts 0 initU (users.take (k + 1))).file := by
  have hchar : ∀ m : Nat,
      fileRows (uLoop dry_run resp ts 0 initU (users.take m)).file =
        (if expRows dry_run resp ts 0 (users.take m) = [] then []
         else headerRow :: expRows dry_run resp ts 0 (users.take m)) := by
    intro m
    rw [uLoop_eq]
    show fileRows (pushFile none (expRows dry_run resp ts 0 (users.take m))) = _
    rw [pushFile_none]
    by_cases hm : expRows dry_run resp ts 0 (users.take m) = []
    · rw [if_pos hm, if_pos hm]; rfl
    · rw [if_neg hm, if_neg hm]; rfl
  refine ⟨hchar k, ?_⟩
  rw [hchar k, hchar (k + 1)]
  rcases Nat.lt_or_ge k users.length with hk | hk
  · have hsplit : users.take (k + 1) = users.take k ++ [users.get ⟨k, hk⟩] := by
      rw [List.take_succ]
      congr 1
      rw [List.getElem?_eq_getElem hk]
      rfl
    rw [hsplit, expRows_append]
    by_cases ha : expRows dry_run resp ts 0 (users.take k) = []
    · simp [ha]
    · rw [if_neg ha, if_neg (by simp [ha])]
      exact ⟨expRows dry_run resp ts
        (0 + (users.take k).length) [users.get ⟨k, hk⟩], by simp⟩
  · have : users.take (k + 1) = users.take k := by
      rw [List.take_of_length_le hk, List.take_of_length_le (by omega)]
    rw [this]

/-- C6: for a record file of N valid rows and any start offset k with
0 < k < N, the refollow workflow completes with exit code 0, invokes the
follow operation for exactly the rows k+1 through N (0-based: the rows
dropped past index k) in file order, and leaves the original record file
unchanged (the workflow performs no write to it). -/
theorem c6_offset_resume (rows : List CsvRow) (us : List RUser) (k : Nat)
    (resp : Nat → HttpResult)
    (h : load_users_from_csv (some (headerRow :: rows)) = some us)
    (hk0 : 0 < k) (hkN : k < us.length) :
    (refollowMain (some (headerRow :: rows)) (k : Int) false true resp).exitCode = 0 ∧
    (refollowMain (some (headerRow :: rows)) (k : Int) false true resp).netCalls =
      (us.drop k).map (fun u => NetCall.postFollow u.fid) ∧
    (refollowMain (some (headerRow :: rows)) (k : Int) false true resp).processedR =
      us.drop k ∧
    (refollowMain (some (headerRow :: rows)) (k : Int) false true resp).file =
      some (headerRow :: rows) := by
  have hus : us.isEmpty = false := by
    cases us with
    | nil => simp at hkN
    | cons a l => rfl
  have h1 : (0 : Int) < (k : Int) := by exact_mod_cast hk0
  have h2 : ¬((us.length : Int) ≤ (k : Int)) := by exact_mod_cast Nat.not_le.mpr hkN
  refine ⟨?_, ?_, ?_, ?_⟩ <;>
    simp [refollowMain, h, hus, h1, h2, refollowRun, rLoop_eq, rExpCalls_not_dry, initR]

/-- Witness for C6: a three-row file resumed from offset 2. -/
theorem c6_offset_resume_witness :
    (refollowMain (some [headerRow,
        { fid := "1", username := "a", display_name := "", unfollowed_at := "T" },
        { fid := "2", username := "b", display_name := "", unfollowed_at := "T" },
        { fid := "3", username := "c", display_name := "", unfollowed_at := "T" }])
        ((2 : Nat) : Int) false true (fun _ => .response 200 none)).netCalls =
      (([
        { fid := 1, username := "a", display_name := "", unfollowed_at := "T" },
        { fid := 2, username := "b", display_name := "", unfollowed_at := "T" },
        { fid := 3, username := "c", display_name := "", unfollowed_at := "T" }] :
        List RUser).drop 2).map (fun u => NetCall.postFollow u.fid) :=
  (c6_offset_resume
    [{ fid := "1", username := "a", display_name := "", unfollowed_at := "T" },
     { fid := "2", username := "b", display_name := "", unfollowed_at := "T" },
     { fid := "3", username := "c", display_name := "", unfollowed_at := "T" }]
    [{ fid := 1, username := "a", display_name := "", unfollowed_at := "T" },
     { fid := 2, username := "b", display_name := "", unfollowed_at := "T" },
     { fid := 3, username := "c", display_name := "", unfollowed_at := "T" }]
    2 (fun _ => .response 200 none) (by decide) (by decide) (by decide)).2.1

/-- C1: for every list of N accounts, running the unfollow workflow over
them with dry_run=false and every unfollow call succeeding, then running
the refollow workflow on the resulting record file (every follow call
succeeding, no offset), issues exactly N follow calls targeting the same
N identities in the same order they were unfollowed (the unfollow run
issues one DELETE per account in list order, and the replay issues one
POST per account with the same fids in the same order). -/
theorem c1_round_trip (users : List FUser) (respU respF : Nat → HttpResult)
    (ts : Nat → String)
    (hU : ∀ j, mutationOutcome unfollowMsgs (respU j) = true)
    (hF : ∀ j, mutationOutcome followMsgs (respF j) = true) :
    (unfollowMain users none false true respU ts).netCalls =
      users.map (fun u => NetCall.deleteFollow u.fid) ∧
    (refollowMain (unfollowMain users none false true respU ts).file
        0 false true respF).netCalls =
      users.map (fun u => NetCall.postFollow u.fid) ∧
    ((refollowMain (unfollowMain users none false true respU ts).file
        0 false true respF).netCalls).length = users.length := by
  by_cases h : users.isEmpty
  · rw [List.isEmpty_iff] at h
    subst h
    exact ⟨rfl, rfl, rfl⟩
  · have hne : recordsOf ts 0 users ≠ [] := by
      intro e
      rw [(recordsOf_eq_nil ts users 0).mp e] at h
      exact h rfl
    have hfile : (unfollowMain users none false true respU ts).file =
        some (headerRow :: recordsOf ts 0 users) := by
      rw [unfollowMain, if_neg h]
      show (uLoop false respU ts 0 initU (applyLimit none users)).file = _
      rw [show applyLimit none users = users from rfl, uLoop_eq]
      show pushFile none (expRows false respU ts 0 users) = _
      rw [expRows_all_success respU ts hU, pushFile_none, if_neg hne]
    have hcalls : (unfollowMain users none false true respU ts).netCalls =
        users.map (fun u => NetCall.deleteFollow u.fid) := by
      rw [unfollowMain, if_neg h]
      show (uLoop false respU ts 0 initU (applyLimit none users)).netCalls = _
      rw [show applyLimit none users = users from rfl, uLoop_eq]
      show [] ++ expUCalls false users = _
      rw [List.nil_append, expUCalls_not_dry]
    have hload : load_users_from_csv (some (headerRow :: recordsOf ts 0 users)) =
        some (rusersOf ts 0 users) := by
      show (if headerRow = headerRow
            then (recordsOf ts 0 users).mapM parseCsvUser else none) = _
      rw [if_pos rfl, recordsOf_mapM]
    have hre : (rusersOf ts 0 users).isEmpty = false := by
      rw [rusersOf_isEmpty]
      cases users with
      | nil => exact absurd rfl h
      | cons a l => rfl
    have hc2 : (refollowMain (unfollowMain users none false true respU ts).file
        0 false true respF).netCalls =
        users.map (fun u => NetCall.postFollow u.fid) := by
      rw [hfile]
      simp only [refollowMain, hload, hre, Bool.false_eq_true, if_false,
        lt_self_iff_false, refollowRun, Bool.not_true, rLoop_eq, initR,
        List.nil_append, rExpCalls_not_dry]
      exact rusersOf_map_fid ts users 0
    exact ⟨hcalls, hc2, by rw [hc2, List.length_map]⟩

/-- Witness for C1: a concrete two-account round trip with all-success
responses. -/
theorem c1_round_trip_witness :
    (unfollowMain
        [{ fid := 1, username := "a", display_name := "", pfp_url := "",
           custody_address := "" },
         { fid := 2, username := "b", display_name := "", pfp_url := "",
           custody_address := "" }]
        none false true (fun _ => .response 200 none) (fun _ => "T")).netCalls =
      ([{ fid := 1, username := "a", display_name := "", pfp_url := "",
          custody_address := "" },
        { fid := 2, username := "b", display_name := "", pfp_url := "",
          custody_address := "" }] : List FUser).map
        (fun u => NetCall.deleteFollow u.fid) ∧
    (refollowMain (unfollowMain
        [{ fid := 1, username := "a", display_name := "", pfp_url := "",
           custody_address := "" },
         { fid := 2, username := "b", display_name := "", pfp_url := "",
           custody_address := "" }]
        none false true (fun _ => .response 200 none) (fun _ => "T")).file
        0 false true (fun _ => .response 200 none)).netCalls =
      ([{ fid := 1, username := "a", display_name := "", pfp_url := "",
          custody_address := "" },
        { fid := 2, username := "b", display_name := "", pfp_url := "",
          custody_address := "" }] : List FUser).map
        (fun u => NetCall.postFollow u.fid) ∧
    ((refollowMain (unfollowMain
        [{ fid := 1, username := "a", display_name := "", pfp_url := "",
           custody_address := "" },
         { fid := 2, username := "b", display_name := "", pfp_url := "",
           custody_address := "" }]
        none false true (fun _ => .response 200 none) (fun _ => "T")).file
        0 false true (fun _ => .response 200 none)).netCalls).length =
      ([{ fid := 1, username := "a", display_name := "", pfp_url := "",
          custody_address := "" },
        { fid := 2, username := "b", display_name := "", pfp_url := "",
          custody_address := "" }] : List FUser).length :=
  c1_round_trip _ (fun _ => .response 200 none) (fun _ => .response 200 none)
    (fun _ => "T") (fun _ => rfl) (fun _ => rfl)
